import Mathlib

/-!
# Shallow embedding of `bp_nmf.py` (Beta-Process Sparse NMF, class `LVI_BP_NMF`)

The source is a single Python file implementing Laplace-approximation
variational inference for BP-NMF.  The embedding below translates the model
state (all `self.*` attributes of `LVI_BP_NMF`) into an explicit `State`
structure over `ℚ`, and each method into a state-passing function.

External numerical primitives are abstracted into a context `Ctx`:
* `exp` stands for `np.exp`,
* `digamma` stands for `scipy.special.psi`,
* `fmin_l_bfgs_b` stands for `scipy.optimize.fmin_l_bfgs_b` (it receives the
  objective, its gradient and the warm start, and returns the mode estimate;
  the diagnostic payload `d` of the source is used only for printing and is
  dropped),
* `lb_val` stands for the scalar value computed by `_lower_bound` (a purely
  diagnostic aggregate of transcendental terms; no claim depends on its
  value, only on whether the assignment to `self.obj` is executed, so the
  value itself is kept abstract in the context).

Printing (`print`, `sys.stdout.write`) and the `verbose`/`disp` flags, which
only affect logging in the source, are dropped.  Machine floats are modelled
as exact rationals.  `np.random` draws performed by `_init` are modelled as
an explicit `Draws` record handed to the constructor.
-/

namespace BPNMF

/-- Sum of a rational-valued function over the whole index range
(`np.sum` along one axis). -/
def sumIdx {n : ℕ} (g : Fin n → ℚ) : ℚ := ∑ i, g i

/-- All `self.*` attributes of `LVI_BP_NMF` after `_init`:
posterior parameters, moment caches, hyperparameters, active set, and the
lower-bound diagnostic `obj` (which the source only creates at the first
`_lower_bound` call; modelled as a field initialised to `0`). -/
structure State (F T K : ℕ) where
  X : Fin F → Fin T → ℚ
  mu_phi : Fin F → Fin K → ℚ
  r_phi : Fin F → Fin K → ℚ
  sigma_phi : Fin F → Fin K → ℚ
  ED : Fin F → Fin K → ℚ
  ED2 : Fin F → Fin K → ℚ
  mu_psi : Fin K → Fin T → ℚ
  r_psi : Fin K → Fin T → ℚ
  sigma_psi : Fin K → Fin T → ℚ
  ES : Fin K → Fin T → ℚ
  ES2 : Fin K → Fin T → ℚ
  p_z : Fin K → Fin T → ℚ
  EZ : Fin K → Fin T → ℚ
  alpha_pi : Fin K → ℚ
  beta_pi : Fin K → ℚ
  Epi : Fin K → ℚ
  alpha_g : ℚ
  beta_g : ℚ
  Eg : ℚ
  good_k : List (Fin K)
  alpha : ℚ
  a0 : ℚ
  b0 : ℚ
  c0 : ℚ
  d0 : ℚ
  obj : ℚ

/-- External primitives consumed by the source (see module comment). -/
structure Ctx where
  exp : ℚ → ℚ
  digamma : ℚ → ℚ
  fmin_l_bfgs_b : (n : ℕ) → ((Fin n → ℚ) → ℚ) → ((Fin n → ℚ) → (Fin n → ℚ)) →
    (Fin n → ℚ) → (Fin n → ℚ)
  lb_val : (F T K : ℕ) → State F T K → ℚ

variable {F T K : ℕ}

/-- `np.dot(self.ED[:, good_k], self.ES[good_k] * self.EZ[good_k])` at `(f, t)`:
the reconstruction restricted to the active set.  This exact expression occurs
in `update_phi`, `update_psi`, `update_z` and `update_r`. -/
def recon (s : State F T K) (f : Fin F) (t : Fin T) : ℚ :=
  (s.good_k.map (fun j => s.ED f j * (s.ES j t * s.EZ j t))).sum

/-- The residual
`Eres = X - dot(ED[:, good_k], ES[good_k] * EZ[good_k]) + outer(ED[:, k], ES[k] * EZ[k])`
recomputed inline at the start of each of `update_phi`, `update_psi`,
`update_z` in the source (it is a local variable there, never stored on
`self`, hence never cached across calls). -/
def Eres (s : State F T K) (k : Fin K) (f : Fin F) (t : Fin T) : ℚ :=
  s.X f t - recon s f t + s.ED f k * (s.ES k t * s.EZ k t)

/-- `comp_expect(mu, r)`: given mean and precision of a Gaussian
`theta ~ N(mu, 1/r)`, compute `E[exp(theta)]` and `E[exp(2*theta)]`
elementwise, i.e. `(np.exp(mu + 1. / (2 * r)), np.exp(2 * mu + 2. / r))`. -/
def comp_expect {ι : Type} (e : ℚ → ℚ) (mu r : ι → ℚ) : (ι → ℚ) × (ι → ℚ) :=
  (fun i => e (mu i + 1 / (2 * r i)), fun i => e (2 * mu i + 2 / r i))

/-- `f_stub` of `update_phi`: `(lcoef, qcoef)` as functions of the candidate
log-dictionary column `phi`, with
`lcoef = Eg * sum(outer(exp(phi), ES[k] * EZ[k]) * Eres, axis=1)` and
`qcoef = -.5 * Eg * sum(outer(exp(2 * phi), ES2[k] * EZ[k]), axis=1)`. -/
def f_stub_phi (c : Ctx) (s : State F T K) (k : Fin K) (phi : Fin F → ℚ) :
    (Fin F → ℚ) × (Fin F → ℚ) :=
  (fun f => s.Eg * sumIdx (fun t => c.exp (phi f) * (s.ES k t * s.EZ k t) * Eres s k f t),
   fun f => -(1/2) * s.Eg * sumIdx (fun t => c.exp (2 * phi f) * (s.ES2 k t * s.EZ k t)))

/-- Objective `f` of `update_phi` (negated sum of `lcoef + qcoef - .5 * phi**2`). -/
def f_phi (c : Ctx) (s : State F T K) (k : Fin K) (phi : Fin F → ℚ) : ℚ :=
  -sumIdx (fun f => (f_stub_phi c s k phi).1 f + (f_stub_phi c s k phi).2 f
    + (-(1/2) * phi f ^ 2))

/-- Gradient `df` of `update_phi`. -/
def df_phi (c : Ctx) (s : State F T K) (k : Fin K) (phi : Fin F → ℚ) : Fin F → ℚ :=
  fun f => -((f_stub_phi c s k phi).1 f + 2 * (f_stub_phi c s k phi).2 f + (-(phi f)))

/-- Second derivative `df2` of `update_phi`; its value at the optimizer mode
becomes the new precision `r_phi[:, k]`. -/
def df2_phi (c : Ctx) (s : State F T K) (k : Fin K) (phi : Fin F → ℚ) : Fin F → ℚ :=
  fun f => -((f_stub_phi c s k phi).1 f + 4 * (f_stub_phi c s k phi).2 f + (-1))

/-- `mu_hat, _, d = optimize.fmin_l_bfgs_b(f, phi0, fprime=df, disp=0)` with
warm start `phi0 = self.mu_phi[:, k]`. -/
def phi_mu_hat (c : Ctx) (s : State F T K) (k : Fin K) : Fin F → ℚ :=
  c.fmin_l_bfgs_b F (f_phi c s k) (df_phi c s k) (fun f => s.mu_phi f k)

/-- The implied precision `df2(mu_hat)` committed to `r_phi[:, k]`. -/
def phi_r_hat (c : Ctx) (s : State F T K) (k : Fin K) : Fin F → ℚ :=
  df2_phi c s k (phi_mu_hat c s k)

/-- The assignment `self.mu_phi[:, k], self.r_phi[:, k] = mu_hat, df2(mu_hat)`
(line executed in `update_phi` before the sign test). -/
def phi_commit_state (c : Ctx) (s : State F T K) (k : Fin K) : State F T K :=
  { s with mu_phi := fun f j => if j = k then phi_mu_hat c s k f else s.mu_phi f j
           r_phi := fun f j => if j = k then phi_r_hat c s k f else s.r_phi f j }

/-- The cache refresh
`self.ED[:, k], self.ED2[:, k] = comp_expect(self.mu_phi[:, k], self.r_phi[:, k])`
on the success path of `update_phi`. -/
def phi_refresh_state (c : Ctx) (s : State F T K) (k : Fin K) : State F T K :=
  { phi_commit_state c s k with
    ED := fun f j =>
      if j = k then (comp_expect c.exp (phi_mu_hat c s k) (phi_r_hat c s k)).1 f else s.ED f j
    ED2 := fun f j =>
      if j = k then (comp_expect c.exp (phi_mu_hat c s k) (phi_r_hat c s k)).2 f else s.ED2 f j }

/-- `update_phi(k)`: commit `mu_phi[:, k], r_phi[:, k] = mu_hat, df2(mu_hat)`;
if `np.any(r_phi[:, k] <= 0)` return `False` (moment caches untouched), else
refresh `ED[:, k], ED2[:, k]` via `comp_expect` and return `True`. -/
def update_phi (c : Ctx) (s : State F T K) (k : Fin K) : Bool × State F T K :=
  if ∃ f, phi_r_hat c s k f ≤ 0 then (false, phi_commit_state c s k)
  else (true, phi_refresh_state c s k)

/-- `f_stub` of `update_psi`:
`lcoef = Eg * sum(outer(ED[:, k], exp(psi) * EZ[k]) * Eres, axis=0)` and
`qcoef = -.5 * Eg * sum(outer(ED2[:, k], exp(2 * psi) * EZ[k]), axis=0)`. -/
def f_stub_psi (c : Ctx) (s : State F T K) (k : Fin K) (psi : Fin T → ℚ) :
    (Fin T → ℚ) × (Fin T → ℚ) :=
  (fun t => s.Eg * sumIdx (fun f => s.ED f k * (c.exp (psi t) * s.EZ k t) * Eres s k f t),
   fun t => -(1/2) * s.Eg * sumIdx (fun f => s.ED2 f k * (c.exp (2 * psi t) * s.EZ k t)))

/-- Objective `f` of `update_psi`, with the Gamma-type prior term
`alpha * psi - alpha * exp(psi)`. -/
def f_psi (c : Ctx) (s : State F T K) (k : Fin K) (psi : Fin T → ℚ) : ℚ :=
  -sumIdx (fun t => (f_stub_psi c s k psi).1 t + (f_stub_psi c s k psi).2 t
    + (s.alpha * psi t - s.alpha * c.exp (psi t)))

/-- Gradient `df` of `update_psi`. -/
def df_psi (c : Ctx) (s : State F T K) (k : Fin K) (psi : Fin T → ℚ) : Fin T → ℚ :=
  fun t => -((f_stub_psi c s k psi).1 t + 2 * (f_stub_psi c s k psi).2 t
    + (s.alpha - s.alpha * c.exp (psi t)))

/-- Second derivative `df2` of `update_psi`. -/
def df2_psi (c : Ctx) (s : State F T K) (k : Fin K) (psi : Fin T → ℚ) : Fin T → ℚ :=
  fun t => -((f_stub_psi c s k psi).1 t + 4 * (f_stub_psi c s k psi).2 t
    + (-(s.alpha * c.exp (psi t))))

/-- Optimizer call of `update_psi`, warm start `psi0 = self.mu_psi[k]`. -/
def psi_mu_hat (c : Ctx) (s : State F T K) (k : Fin K) : Fin T → ℚ :=
  c.fmin_l_bfgs_b T (f_psi c s k) (df_psi c s k) (fun t => s.mu_psi k t)

/-- The implied precision `df2(mu_hat)` committed to `r_psi[k]`. -/
def psi_r_hat (c : Ctx) (s : State F T K) (k : Fin K) : Fin T → ℚ :=
  df2_psi c s k (psi_mu_hat c s k)

/-- The assignment `self.mu_psi[k], self.r_psi[k] = mu_hat, df2(mu_hat)`
(line executed in `update_psi` before the sign test). -/
def psi_commit_state (c : Ctx) (s : State F T K) (k : Fin K) : State F T K :=
  { s with mu_psi := fun j t => if j = k then psi_mu_hat c s k t else s.mu_psi j t
           r_psi := fun j t => if j = k then psi_r_hat c s k t else s.r_psi j t }

/-- The cache refresh
`self.ES[k], self.ES2[k] = comp_expect(self.mu_psi[k], self.r_psi[k])`
on the success path of `update_psi`. -/
def psi_refresh_state (c : Ctx) (s : State F T K) (k : Fin K) : State F T K :=
  { psi_commit_state c s k with
    ES := fun j t =>
      if j = k then (comp_expect c.exp (psi_mu_hat c s k) (psi_r_hat c s k)).1 t else s.ES j t
    ES2 := fun j t =>
      if j = k then (comp_expect c.exp (psi_mu_hat c s k) (psi_r_hat c s k)).2 t else s.ES2 j t }

/-- `update_psi(k)`: commit `mu_psi[k], r_psi[k] = mu_hat, df2(mu_hat)`;
if `np.any(r_psi[k] <= 0)` return `False`, else refresh `ES[k], ES2[k]`
and return `True`. -/
def update_psi (c : Ctx) (s : State F T K) (k : Fin K) : Bool × State F T K :=
  if ∃ t, psi_r_hat c s k t ≤ 0 then (false, psi_commit_state c s k)
  else (true, psi_refresh_state c s k)

/-- `update_z(k)`: closed-form logistic update of `p_z[k]`; `EZ` aliases `p_z`
in the source (`self.EZ = self.p_z` in `_init`), so both rows are updated. -/
def update_z (c : Ctx) (s : State F T K) (k : Fin K) : State F T K :=
  let dummy : Fin T → ℚ := fun t =>
    s.Eg * (-(1/2) * sumIdx (fun f => s.ED2 f k * s.ES2 k t)
      + sumIdx (fun f => s.ED f k * s.ES k t * Eres s k f t))
  let p0 : ℚ := c.digamma (s.beta_pi k) - c.digamma (s.alpha_pi k + s.beta_pi k)
  let p1 : Fin T → ℚ := fun t =>
    c.digamma (s.alpha_pi k) - c.digamma (s.alpha_pi k + s.beta_pi k) + dummy t
  let pz : Fin T → ℚ := fun t => 1 / (1 + c.exp (p0 - p1 t))
  { s with p_z := fun j t => if j = k then pz t else s.p_z j t
           EZ := fun j t => if j = k then pz t else s.EZ j t }

/-- `update_pi()`: closed-form Beta posterior over all `K` components. -/
def update_pi (s : State F T K) : State F T K :=
  let ap : Fin K → ℚ := fun k => s.a0 / K + sumIdx (fun t => s.EZ k t)
  let bp : Fin K → ℚ := fun k => s.b0 * ((K : ℚ) - 1) / K + T - sumIdx (fun t => s.EZ k t)
  { s with alpha_pi := ap, beta_pi := bp, Epi := fun k => ap k / (ap k + bp k) }

/-- `update_r()`: closed-form Gamma posterior for the noise precision. -/
def update_r (s : State F T K) : State F T K :=
  let ag : ℚ := s.c0 + (1/2) * F * T
  let bg : ℚ := s.d0 + (1/2) * sumIdx (fun f => sumIdx (fun t => (s.X f t - recon s f t) ^ 2))
  { s with alpha_g := ag, beta_g := bg, Eg := ag / bg }

/-- `np.max` of a list of rationals (defined only on nonempty input in numpy;
the `[]` case is given the junk value `0`, and every statement about pruning
below assumes a nonempty active set). -/
def maxQ : List ℚ → ℚ
  | [] => 0
  | x :: xs => xs.foldl max x

/-- The truncation
`np.delete(good_k, np.where(Epi[good_k] < 1e-3 * np.max(Epi[good_k])))`:
keep exactly the active components whose `Epi` is not below
`1e-3 * max(Epi over the active set)`. -/
def prune (s : State F T K) : List (Fin K) :=
  s.good_k.filter (fun k => !decide (s.Epi k < (1/1000) * maxQ (s.good_k.map s.Epi)))

/-- `self._lower_bound()`: recomputes the scalar diagnostic `self.obj` from the
whole current state (the value itself is the abstract `Ctx.lb_val`; see the
module comment). -/
def lower_bound_step (c : Ctx) (s : State F T K) : State F T K :=
  { s with obj := c.lb_val F T K s }

/-- The per-component loop body of `update`: for each `k` in the active set,
`ind_phi = update_phi(k)` if `update_D` else `True`; `update_z(k)`;
`ind_psi = update_psi(k)`; abort returning `False` as soon as
`not ind_phi or not ind_psi`. -/
def sweepComponents (c : Ctx) (update_D : Bool) :
    List (Fin K) → State F T K → Bool × State F T K
  | [], s => (true, s)
  | k :: ks, s =>
    let step1 := if update_D then update_phi c s k else (true, s)
    let step3 := update_psi c (update_z c step1.2 k) k
    if step1.1 && step3.1 then sweepComponents c update_D ks step3.2
    else (false, step3.2)

/-- `update(update_D, verbose, disp)`: one full sweep.  On per-component
failure return `False` with no global update committed; otherwise run
`update_pi`, `update_r`, the truncation of `good_k`, and `_lower_bound`,
and return `True`.  (`verbose` and `disp` only drive printing and are
dropped.) -/
def update (c : Ctx) (update_D : Bool) (s : State F T K) : Bool × State F T K :=
  let r := sweepComponents c update_D s.good_k s
  if r.1 then
    let s1 := update_pi r.2
    let s2 := update_r s1
    let s3 : State F T K := { s2 with good_k := prune s2 }
    (true, lower_bound_step c s3)
  else (false, r.2)

/-- The keyword arguments of the constructor; a missing entry means the
keyword was not supplied (so `kwargs.get` falls back to its default). -/
structure Hyper where
  alpha : Option ℚ := none
  a0 : Option ℚ := none
  b0 : Option ℚ := none
  c0 : Option ℚ := none
  d0 : Option ℚ := none

/-- `_parse_args(**kwargs)`: every hyperparameter falls back to its documented
default (`alpha=2., a0=1., b0=1., c0=1e-6, d0=1e-6`); nothing is validated or
rejected. -/
def parse_args (h : Hyper) : ℚ × ℚ × ℚ × ℚ × ℚ :=
  (h.alpha.getD 2, h.a0.getD 1, h.b0.getD 1, h.c0.getD (1/1000000), h.d0.getD (1/1000000))

/-- The `np.random` draws consumed by `_init` (randn / gamma / rand),
modelled as explicit inputs. -/
structure Draws (F T K : ℕ) where
  mu_phi : Fin F → Fin K → ℚ
  r_phi : Fin F → Fin K → ℚ
  mu_psi : Fin K → Fin T → ℚ
  r_psi : Fin K → Fin T → ℚ
  p_z : Fin K → Fin T → ℚ
  alpha_pi : Fin K → ℚ
  beta_pi : Fin K → ℚ
  alpha_g : ℚ
  beta_g : ℚ

/-- `LVI_BP_NMF.__init__` followed by `_init`: parse the kwargs, store the
draws, derive the moment caches via `comp_expect`, alias `EZ = p_z`, set the
active set to `np.arange(K)`.  The construction is total: the source contains
no validation or rejection path (`seed` and `smoothness` only steer the PRNG
and are absorbed into `Draws`). -/
def LVI_BP_NMF_init (c : Ctx) (X : Fin F → Fin T → ℚ) (h : Hyper) (d : Draws F T K) :
    State F T K :=
  let hp := parse_args h
  { X := X
    mu_phi := d.mu_phi
    r_phi := d.r_phi
    sigma_phi := fun f k => 1 / d.r_phi f k
    ED := fun f k => (comp_expect c.exp (fun f2 => d.mu_phi f2 k) (fun f2 => d.r_phi f2 k)).1 f
    ED2 := fun f k => (comp_expect c.exp (fun f2 => d.mu_phi f2 k) (fun f2 => d.r_phi f2 k)).2 f
    mu_psi := d.mu_psi
    r_psi := d.r_psi
    sigma_psi := fun k t => 1 / d.r_psi k t
    ES := fun k t => (comp_expect c.exp (fun t2 => d.mu_psi k t2) (fun t2 => d.r_psi k t2)).1 t
    ES2 := fun k t => (comp_expect c.exp (fun t2 => d.mu_psi k t2) (fun t2 => d.r_psi k t2)).2 t
    p_z := d.p_z
    EZ := d.p_z
    alpha_pi := d.alpha_pi
    beta_pi := d.beta_pi
    Epi := fun k => d.alpha_pi k / (d.alpha_pi k + d.beta_pi k)
    alpha_g := d.alpha_g
    beta_g := d.beta_g
    Eg := d.alpha_g / d.beta_g
    good_k := List.finRange K
    alpha := hp.1
    a0 := hp.2.1
    b0 := hp.2.2.1
    c0 := hp.2.2.2.1
    d0 := hp.2.2.2.2
    obj := 0 }

/-- The moment caches agree with `comp_expect` of the stored mean/precision
pairs, for every dictionary entry and every activation entry. -/
def cachesOK (c : Ctx) (s : State F T K) : Prop :=
  (∀ f k, s.ED f k =
    (comp_expect c.exp (fun f2 => s.mu_phi f2 k) (fun f2 => s.r_phi f2 k)).1 f) ∧
  (∀ f k, s.ED2 f k =
    (comp_expect c.exp (fun f2 => s.mu_phi f2 k) (fun f2 => s.r_phi f2 k)).2 f) ∧
  (∀ k t, s.ES k t =
    (comp_expect c.exp (fun t2 => s.mu_psi k t2) (fun t2 => s.r_psi k t2)).1 t) ∧
  (∀ k t, s.ES2 k t =
    (comp_expect c.exp (fun t2 => s.mu_psi k t2) (fun t2 => s.r_psi k t2)).2 t)

/-- Concrete external primitives for evaluation: the exponential, digamma and
lower-bound oracles are the identity / a constant, and the optimizer returns
its warm start unchanged. -/
def ctxId : Ctx :=
  { exp := fun x => x
    digamma := fun x => x
    fmin_l_bfgs_b := fun _ _ _ x0 => x0
    lb_val := fun _ _ _ _ => 99 }

/-- Like `ctxId`, but the optimizer moves every coordinate of the warm start
up by one (so committed means visibly differ from the previous ones). -/
def ctxShift : Ctx :=
  { ctxId with fmin_l_bfgs_b := fun _ _ _ x0 => fun i => x0 i + 1 }

/-- A concrete 1-by-1 model state with one active component and caches
consistent under `ctxId`; the observation 14 is large enough that the implied
precisions of both `update_phi` and `update_psi` come out non-positive. -/
def sFail : State 1 1 1 :=
  { X := fun _ _ => 14
    mu_phi := fun _ _ => 1/2
    r_phi := fun _ _ => 1
    sigma_phi := fun _ _ => 1
    ED := fun _ _ => 1
    ED2 := fun _ _ => 3
    mu_psi := fun _ _ => 1/2
    r_psi := fun _ _ => 1
    sigma_psi := fun _ _ => 1
    ES := fun _ _ => 1
    ES2 := fun _ _ => 3
    p_z := fun _ _ => 1
    EZ := fun _ _ => 1
    alpha_pi := fun _ => 1
    beta_pi := fun _ => 1
    Epi := fun _ => 1/2
    alpha_g := 1
    beta_g := 1
    Eg := 1
    good_k := [0]
    alpha := 1
    a0 := 1
    b0 := 1
    c0 := 1
    d0 := 1
    obj := 0 }

/-- The same state with a small observation: the whole sweep succeeds. -/
def sSucc : State 1 1 1 := { sFail with X := fun _ _ => 2 }

/-- The same state with an all-zero observation but nonzero reconstruction. -/
def sZero : State 1 1 1 := { sFail with X := fun _ _ => 0 }

/-- Concrete PRNG draws for a 1-by-1, one-component construction. -/
def drawsOne : Draws 1 1 1 :=
  { mu_phi := fun _ _ => 1/2
    r_phi := fun _ _ => 1
    mu_psi := fun _ _ => 1/2
    r_psi := fun _ _ => 1
    p_z := fun _ _ => 1
    alpha_pi := fun _ => 1
    beta_pi := fun _ => 1
    alpha_g := 1
    beta_g := 1 }

/-- Degenerate draws for a construction with `K = 0` components. -/
def drawsK0 : Draws 1 1 0 :=
  { mu_phi := fun _ j => j.elim0
    r_phi := fun _ j => j.elim0
    mu_psi := fun j _ => j.elim0
    r_psi := fun j _ => j.elim0
    p_z := fun j _ => j.elim0
    alpha_pi := fun j => j.elim0
    beta_pi := fun j => j.elim0
    alpha_g := 1
    beta_g := 1 }

section FrameLemmas

variable (c : Ctx) (s : State F T K) (k : Fin K)

lemma update_phi_snd_globals :
    (update_phi c s k).2.alpha_pi = s.alpha_pi ∧ (update_phi c s k).2.beta_pi = s.beta_pi ∧
    (update_phi c s k).2.Epi = s.Epi ∧ (update_phi c s k).2.alpha_g = s.alpha_g ∧
    (update_phi c s k).2.beta_g = s.beta_g ∧ (update_phi c s k).2.Eg = s.Eg ∧
    (update_phi c s k).2.good_k = s.good_k ∧ (update_phi c s k).2.obj = s.obj := by
  unfold update_phi
  split <;> simp [phi_commit_state, phi_refresh_state]

lemma update_psi_snd_globals :
    (update_psi c s k).2.alpha_pi = s.alpha_pi ∧ (update_psi c s k).2.beta_pi = s.beta_pi ∧
    (update_psi c s k).2.Epi = s.Epi ∧ (update_psi c s k).2.alpha_g = s.alpha_g ∧
    (update_psi c s k).2.beta_g = s.beta_g ∧ (update_psi c s k).2.Eg = s.Eg ∧
    (update_psi c s k).2.good_k = s.good_k ∧ (update_psi c s k).2.obj = s.obj := by
  unfold update_psi
  split <;> simp [psi_commit_state, psi_refresh_state]

lemma update_z_globals :
    (update_z c s k).alpha_pi = s.alpha_pi ∧ (update_z c s k).beta_pi = s.beta_pi ∧
    (update_z c s k).Epi = s.Epi ∧ (update_z c s k).alpha_g = s.alpha_g ∧
    (update_z c s k).beta_g = s.beta_g ∧ (update_z c s k).Eg = s.Eg ∧
    (update_z c s k).good_k = s.good_k ∧ (update_z c s k).obj = s.obj := by
  simp [update_z]

lemma update_psi_snd_dict :
    (update_psi c s k).2.mu_phi = s.mu_phi ∧ (update_psi c s k).2.r_phi = s.r_phi ∧
    (update_psi c s k).2.ED = s.ED ∧ (update_psi c s k).2.ED2 = s.ED2 := by
  unfold update_psi
  split <;> simp [psi_commit_state, psi_refresh_state]

lemma update_z_dict :
    (update_z c s k).mu_phi = s.mu_phi ∧ (update_z c s k).r_phi = s.r_phi ∧
    (update_z c s k).ED = s.ED ∧ (update_z c s k).ED2 = s.ED2 := by
  simp [update_z]

end FrameLemmas

/-- The per-component loop never touches the prior, noise, active-set or
lower-bound fields, whether it succeeds or fails. -/
lemma sweep_globals (c : Ctx) (b : Bool) :
    ∀ (ks : List (Fin K)) (s : State F T K),
    ((sweepComponents c b ks s).2).alpha_pi = s.alpha_pi ∧
    ((sweepComponents c b ks s).2).beta_pi = s.beta_pi ∧
    ((sweepComponents c b ks s).2).Epi = s.Epi ∧
    ((sweepComponents c b ks s).2).alpha_g = s.alpha_g ∧
    ((sweepComponents c b ks s).2).beta_g = s.beta_g ∧
    ((sweepComponents c b ks s).2).Eg = s.Eg ∧
    ((sweepComponents c b ks s).2).good_k = s.good_k ∧
    ((sweepComponents c b ks s).2).obj = s.obj := by
  intro ks
  induction ks with
  | nil => intro s; simp [sweepComponents]
  | cons k t ih =>
    intro s
    have hstep1 : ∀ s2 : State F T K,
        ((if b then update_phi c s2 k else (true, s2)).2).alpha_pi = s2.alpha_pi ∧
        ((if b then update_phi c s2 k else (true, s2)).2).beta_pi = s2.beta_pi ∧
        ((if b then update_phi c s2 k else (true, s2)).2).Epi = s2.Epi ∧
        ((if b then update_phi c s2 k else (true, s2)).2).alpha_g = s2.alpha_g ∧
        ((if b then update_phi c s2 k else (true, s2)).2).beta_g = s2.beta_g ∧
        ((if b then update_phi c s2 k else (true, s2)).2).Eg = s2.Eg ∧
        ((if b then update_phi c s2 k else (true, s2)).2).good_k = s2.good_k ∧
        ((if b then update_phi c s2 k else (true, s2)).2).obj = s2.obj := by
      intro s2
      cases b with
      | false => simp
      | true => simpa using update_phi_snd_globals c s2 k
    obtain ⟨a1, b1, e1, d1, g1, f1, k1, o1⟩ := hstep1 s
    obtain ⟨a2, b2, e2, d2, g2, f2, k2, o2⟩ :=
      update_z_globals c (if b then update_phi c s k else (true, s)).2 k
    obtain ⟨a3, b3, e3, d3, g3, f3, k3, o3⟩ :=
      update_psi_snd_globals c (update_z c (if b then update_phi c s k else (true, s)).2 k) k
    simp only [sweepComponents]
    by_cases hif : ((if b then update_phi c s k else (true, s)).1 &&
        (update_psi c (update_z c (if b then update_phi c s k else (true, s)).2 k) k).1) = true
    · rw [if_pos hif]
      obtain ⟨A, B, E, D, G, Fq, Kq, O⟩ :=
        ih (update_psi c (update_z c (if b then update_phi c s k else (true, s)).2 k) k).2
      exact ⟨A.trans (a3.trans (a2.trans a1)), B.trans (b3.trans (b2.trans b1)),
        E.trans (e3.trans (e2.trans e1)), D.trans (d3.trans (d2.trans d1)),
        G.trans (g3.trans (g2.trans g1)), Fq.trans (f3.trans (f2.trans f1)),
        Kq.trans (k3.trans (k2.trans k1)), O.trans (o3.trans (o2.trans o1))⟩
    · rw [if_neg hif]
      exact ⟨a3.trans (a2.trans a1), b3.trans (b2.trans b1), e3.trans (e2.trans e1),
        d3.trans (d2.trans d1), g3.trans (g2.trans g1), f3.trans (f2.trans f1),
        k3.trans (k2.trans k1), o3.trans (o2.trans o1)⟩

/-- Any observation of the state preserved by the three per-component updates
is preserved by the whole per-component loop (`update_phi` need only preserve
it when the dictionary flag is on). -/
lemma sweep_invariant {α : Type} (c : Ctx) (b : Bool) (g : State F T K → α)
    (hphi : ∀ (s : State F T K) (k : Fin K), b = true → g (update_phi c s k).2 = g s)
    (hz : ∀ (s : State F T K) (k : Fin K), g (update_z c s k) = g s)
    (hpsi : ∀ (s : State F T K) (k : Fin K), g (update_psi c s k).2 = g s) :
    ∀ (ks : List (Fin K)) (s : State F T K), g (sweepComponents c b ks s).2 = g s := by
  intro ks
  induction ks with
  | nil => intro s; simp [sweepComponents]
  | cons k t ih =>
    intro s
    have hstep1 : g (if b then update_phi c s k else (true, s)).2 = g s := by
      cases b with
      | false => simp
      | true => simpa using hphi s k rfl
    simp only [sweepComponents]
    by_cases hif : ((if b then update_phi c s k else (true, s)).1 &&
        (update_psi c (update_z c (if b then update_phi c s k else (true, s)).2 k) k).1) = true
    · rw [if_pos hif, ih, hpsi, hz, hstep1]
    · rw [if_neg hif]
      show g (update_psi c (update_z c (if b then update_phi c s k else (true, s)).2 k) k).2 = g s
      rw [hpsi, hz, hstep1]

/-- If the sweep reports failure, the per-component loop reported failure. -/
lemma update_fst_false (c : Ctx) (b : Bool) (s : State F T K)
    (h : (update c b s).1 = false) : (sweepComponents c b s.good_k s).1 = false := by
  by_cases hr : (sweepComponents c b s.good_k s).1 = true
  · exfalso
    have : (update c b s).1 = true := by simp [update, hr]
    rw [h] at this
    exact Bool.false_ne_true this
  · exact Bool.not_eq_true _ ▸ (Bool.eq_false_iff.mpr (fun hc => hr hc))

/-- If the sweep reports success, the per-component loop reported success. -/
lemma update_fst_true (c : Ctx) (b : Bool) (s : State F T K)
    (h : (update c b s).1 = true) : (sweepComponents c b s.good_k s).1 = true := by
  by_cases hr : (sweepComponents c b s.good_k s).1 = true
  · exact hr
  · exfalso
    have hf : (sweepComponents c b s.good_k s).1 = false := Bool.eq_false_iff.mpr hr
    have : (update c b s).1 = false := by simp [update, hf]
    rw [h] at this
    exact Bool.false_ne_true this.symm

/-- C5.  If any per-component dictionary or activation update in a sweep fails
numerically, `update` returns `False` and none of the global steps are
committed: the usage-prior parameters (`alpha_pi`, `beta_pi`, `Epi`), the
noise-precision parameters (`alpha_g`, `beta_g`, `Eg`), the active set
(`good_k`) and the lower bound (`obj`) all keep their pre-sweep values. -/
theorem c5_failed_sweep_no_global_commit (c : Ctx) (b : Bool) (s : State F T K)
    (h : (update c b s).1 = false) :
    (update c b s).2.alpha_pi = s.alpha_pi ∧ (update c b s).2.beta_pi = s.beta_pi ∧
    (update c b s).2.Epi = s.Epi ∧ (update c b s).2.alpha_g = s.alpha_g ∧
    (update c b s).2.beta_g = s.beta_g ∧ (update c b s).2.Eg = s.Eg ∧
    (update c b s).2.good_k = s.good_k ∧ (update c b s).2.obj = s.obj := by
  have hr := update_fst_false c b s h
  have h2 : (update c b s).2 = (sweepComponents c b s.good_k s).2 := by
    simp [update, hr]
  rw [h2]
  exact sweep_globals c b s.good_k s

/-- C10.  If the dictionary update for the first active component `k` fails,
the sweep still executes `update_z(k)` and `update_psi(k)` on the
post-failure state — committing their mutations of `p_z[k]`, `EZ[k]`,
`mu_psi[k]`, `r_psi[k]` — before `update` returns `False` with exactly that
state. -/
theorem c10_z_psi_run_after_phi_failure (c : Ctx) (s : State F T K) (k : Fin K)
    (ks : List (Fin K)) (hg : s.good_k = k :: ks)
    (hfail : (update_phi c s k).1 = false) :
    update c true s = (false, (update_psi c (update_z c (update_phi c s k).2 k) k).2) := by
  have hsweep : sweepComponents c true (k :: ks) s =
      (false, (update_psi c (update_z c (update_phi c s k).2 k) k).2) := by
    simp [sweepComponents, hfail]
  simp [update, hg, hsweep]

/-- C9.  A sweep with the dictionary flag off (`update(update_D=False)`)
leaves the entire dictionary posterior — `mu_phi`, `r_phi` and the moment
caches `ED`, `ED2` — unchanged, whether the sweep succeeds or fails, while
the other factors are still updated: on success the usage-prior parameters
are recomputed from the sweep-updated usage expectations (`EZ`). -/
theorem c9_encode_only_fixes_dictionary (c : Ctx) (s : State F T K) :
    (update c false s).2.mu_phi = s.mu_phi ∧ (update c false s).2.r_phi = s.r_phi ∧
    (update c false s).2.ED = s.ED ∧ (update c false s).2.ED2 = s.ED2 ∧
    ((sweepComponents c false s.good_k s).1 = true →
      (update c false s).2.alpha_pi = fun j =>
        s.a0 / K + sumIdx (fun t => (sweepComponents c false s.good_k s).2.EZ j t)) := by
  have hphi : ∀ (g : State F T K → Fin F → Fin K → ℚ),
      (∀ (s2 : State F T K) (k : Fin K), g (update_phi c s2 k).2 = g s2) → True := fun _ _ => trivial
  have hmu : ∀ (s2 : State F T K),
      (sweepComponents c false s2.good_k s2).2.mu_phi = s2.mu_phi := fun s2 =>
    sweep_invariant c false State.mu_phi
      (fun _ _ hb => absurd hb (by simp))
      (fun s3 k => by simp [update_z])
      (fun s3 k => (update_psi_snd_dict c s3 k).1) s2.good_k s2
  have hrp : ∀ (s2 : State F T K),
      (sweepComponents c false s2.good_k s2).2.r_phi = s2.r_phi := fun s2 =>
    sweep_invariant c false State.r_phi
      (fun _ _ hb => absurd hb (by simp))
      (fun s3 k => by simp [update_z])
      (fun s3 k => (update_psi_snd_dict c s3 k).2.1) s2.good_k s2
  have hED : ∀ (s2 : State F T K),
      (sweepComponents c false s2.good_k s2).2.ED = s2.ED := fun s2 =>
    sweep_invariant c false State.ED
      (fun _ _ hb => absurd hb (by simp))
      (fun s3 k => by simp [update_z])
      (fun s3 k => (update_psi_snd_dict c s3 k).2.2.1) s2.good_k s2
  have hED2 : ∀ (s2 : State F T K),
      (sweepComponents c false s2.good_k s2).2.ED2 = s2.ED2 := fun s2 =>
    sweep_invariant c false State.ED2
      (fun _ _ hb => absurd hb (by simp))
      (fun s3 k => by simp [update_z])
      (fun s3 k => (update_psi_snd_dict c s3 k).2.2.2) s2.good_k s2
  have ha0 : (sweepComponents c false s.good_k s).2.a0 = s.a0 :=
    sweep_invariant c false State.a0
      (fun s3 k hb => absurd hb (by simp))
      (fun s3 k => by simp [update_z])
      (fun s3 k => by unfold update_psi; split <;> simp [psi_commit_state, psi_refresh_state])
      s.good_k s
  by_cases hr : (sweepComponents c false s.good_k s).1 = true
  · have h2 : (update c false s).2 =
        lower_bound_step c
          { update_r (update_pi (sweepComponents c false s.good_k s).2) with
            good_k := prune (update_r (update_pi (sweepComponents c false s.good_k s).2)) } := by
      simp [update, hr]
    refine ⟨?_, ?_, ?_, ?_, fun _ => ?_⟩
    · rw [h2]
      show (update_pi (sweepComponents c false s.good_k s).2).mu_phi = s.mu_phi
      show (sweepComponents c false s.good_k s).2.mu_phi = s.mu_phi
      exact hmu s
    · rw [h2]
      show (sweepComponents c false s.good_k s).2.r_phi = s.r_phi
      exact hrp s
    · rw [h2]
      show (sweepComponents c false s.good_k s).2.ED = s.ED
      exact hED s
    · rw [h2]
      show (sweepComponents c false s.good_k s).2.ED2 = s.ED2
      exact hED2 s
    · rw [h2]
      show (update_pi (sweepComponents c false s.good_k s).2).alpha_pi = _
      rw [show (update_pi (sweepComponents c false s.good_k s).2).alpha_pi = fun j =>
        (sweepComponents c false s.good_k s).2.a0 / K +
          sumIdx (fun t => (sweepComponents c false s.good_k s).2.EZ j t) from rfl, ha0]
  · have hf : (sweepComponents c false s.good_k s).1 = false := Bool.eq_false_iff.mpr hr
    have h2 : (update c false s).2 = (sweepComponents c false s.good_k s).2 := by
      simp [update, hf]
    exact ⟨h2 ▸ hmu s, h2 ▸ hrp s, h2 ▸ hED s, h2 ▸ hED2 s, fun hc => absurd hc hr⟩

/-- C8.  After every successful sweep the new active set is exactly the old
active set filtered by the pruning test (`Epi[k]` not below `1e-3` times the
maximum of `Epi` over the previous active set, with `Epi` the just-recomputed
usage-prior expectation); consequently it is a sublist of the previous active
set (so a pruned component is never reintroduced), its size is non-increasing,
and every member is an index below `K`.  The nonemptiness hypothesis mirrors
`np.max`, which rejects an empty active set. -/
theorem c8_prune_characterization (c : Ctx) (b : Bool) (s : State F T K)
    (hne : s.good_k ≠ []) (h : (update c b s).1 = true) :
    (update c b s).2.good_k = s.good_k.filter
      (fun k => !decide ((update c b s).2.Epi k <
        (1/1000) * maxQ (s.good_k.map (update c b s).2.Epi))) ∧
    (update c b s).2.good_k.Sublist s.good_k ∧
    (update c b s).2.good_k.length ≤ s.good_k.length ∧
    ∀ k ∈ (update c b s).2.good_k, (k : ℕ) < K := by
  have hr := update_fst_true c b s h
  have hgk : (sweepComponents c b s.good_k s).2.good_k = s.good_k :=
    (sweep_globals c b s.good_k s).2.2.2.2.2.2.1
  have h2 : (update c b s).2 =
      lower_bound_step c
        { update_r (update_pi (sweepComponents c b s.good_k s).2) with
          good_k := prune (update_r (update_pi (sweepComponents c b s.good_k s).2)) } := by
    simp [update, hr]
  have hEpi : (update c b s).2.Epi =
      (update_pi (sweepComponents c b s.good_k s).2).Epi := by
    rw [h2]; rfl
  have hgood : (update c b s).2.good_k =
      prune (update_r (update_pi (sweepComponents c b s.good_k s).2)) := by
    rw [h2]; rfl
  have hprune : prune (update_r (update_pi (sweepComponents c b s.good_k s).2)) =
      s.good_k.filter
        (fun k => !decide ((update_pi (sweepComponents c b s.good_k s).2).Epi k <
          (1/1000) * maxQ
            (s.good_k.map (update_pi (sweepComponents c b s.good_k s).2).Epi))) := by
    show (sweepComponents c b s.good_k s).2.good_k.filter
        (fun k => !decide ((update_pi (sweepComponents c b s.good_k s).2).Epi k <
          (1/1000) * maxQ ((sweepComponents c b s.good_k s).2.good_k.map
            (update_pi (sweepComponents c b s.good_k s).2).Epi))) = _
    rw [hgk]
  have hchar : (update c b s).2.good_k = s.good_k.filter
      (fun k => !decide ((update c b s).2.Epi k <
        (1/1000) * maxQ (s.good_k.map (update c b s).2.Epi))) := by
    rw [hgood, hprune, hEpi]
  refine ⟨hchar, ?_, ?_, ?_⟩
  · rw [hchar]
    exact List.filter_sublist s.good_k
  · rw [hchar]
    exact (List.filter_sublist s.good_k).length_le
  · intro k _
    exact k.isLt

/-- A successful `update_phi` refreshes exactly the caches of column `k`,
so cache consistency is preserved. -/
lemma update_phi_true_caches (c : Ctx) (s : State F T K) (k : Fin K)
    (h : (update_phi c s k).1 = true) (hc : cachesOK c s) :
    cachesOK c (update_phi c s k).2 := by
  obtain ⟨h1, h2, h3, h4⟩ := hc
  unfold update_phi at h ⊢
  by_cases hf : ∃ f, phi_r_hat c s k f ≤ 0
  · rw [if_pos hf] at h
    exact absurd h (by simp)
  · rw [if_neg hf]
    refine ⟨?_, ?_, ?_, ?_⟩
    · intro f k2
      by_cases hk : k2 = k
      · subst hk
        simp [phi_refresh_state, phi_commit_state, comp_expect]
      · simpa [phi_refresh_state, phi_commit_state, comp_expect, hk] using h1 f k2
    · intro f k2
      by_cases hk : k2 = k
      · subst hk
        simp [phi_refresh_state, phi_commit_state, comp_expect]
      · simpa [phi_refresh_state, phi_commit_state, comp_expect, hk] using h2 f k2
    · intro k2 t
      simpa [phi_refresh_state, phi_commit_state, comp_expect] using h3 k2 t
    · intro k2 t
      simpa [phi_refresh_state, phi_commit_state, comp_expect] using h4 k2 t

/-- A successful `update_psi` refreshes exactly the caches of row `k`. -/
lemma update_psi_true_caches (c : Ctx) (s : State F T K) (k : Fin K)
    (h : (update_psi c s k).1 = true) (hc : cachesOK c s) :
    cachesOK c (update_psi c s k).2 := by
  obtain ⟨h1, h2, h3, h4⟩ := hc
  unfold update_psi at h ⊢
  by_cases hf : ∃ t, psi_r_hat c s k t ≤ 0
  · rw [if_pos hf] at h
    exact absurd h (by simp)
  · rw [if_neg hf]
    refine ⟨?_, ?_, ?_, ?_⟩
    · intro f k2
      simpa [psi_refresh_state, psi_commit_state, comp_expect] using h1 f k2
    · intro f k2
      simpa [psi_refresh_state, psi_commit_state, comp_expect] using h2 f k2
    · intro k2 t
      by_cases hk : k2 = k
      · subst hk
        simp [psi_refresh_state, psi_commit_state, comp_expect]
      · simpa [psi_refresh_state, psi_commit_state, comp_expect, hk] using h3 k2 t
    · intro k2 t
      by_cases hk : k2 = k
      · subst hk
        simp [psi_refresh_state, psi_commit_state, comp_expect]
      · simpa [psi_refresh_state, psi_commit_state, comp_expect, hk] using h4 k2 t

/-- `update_z` touches neither the mean/precision pairs nor the caches. -/
lemma update_z_caches (c : Ctx) (s : State F T K) (k : Fin K)
    (hc : cachesOK c s) : cachesOK c (update_z c s k) := hc

/-- A fully successful per-component loop preserves cache consistency. -/
lemma sweep_caches (c : Ctx) (b : Bool) :
    ∀ (ks : List (Fin K)) (s : State F T K),
    (sweepComponents c b ks s).1 = true → cachesOK c s →
    cachesOK c (sweepComponents c b ks s).2 := by
  intro ks
  induction ks with
  | nil => intro s _ hc; simpa [sweepComponents] using hc
  | cons k t ih =>
    intro s h hc
    simp only [sweepComponents] at h ⊢
    by_cases hif : ((if b then update_phi c s k else (true, s)).1 &&
        (update_psi c (update_z c (if b then update_phi c s k else (true, s)).2 k) k).1) = true
    · rw [if_pos hif] at h ⊢
      have hb := hif
      rw [Bool.and_eq_true] at hb
      have hb3 := hb.2
      have hc1 : cachesOK c (if b then update_phi c s k else (true, s)).2 := by
        cases b with
        | false => simpa using hc
        | true =>
          have hb1 := hb.1
          simp only [if_true] at hb1 ⊢
          exact update_phi_true_caches c s k hb1 hc
      have hc2 := update_z_caches c (if b then update_phi c s k else (true, s)).2 k hc1
      have hc3 := update_psi_true_caches c _ k hb3 hc2
      exact ih _ h hc3
    · rw [if_neg hif] at h
      exact absurd h (by simp)

/-- C2 (amended).  Cache consistency holds right after construction, and it is
preserved by every successful sweep: if the caches agree with `comp_expect`
of the stored mean/precision pairs before `update` and `update` returns
`True`, they agree afterwards.  (After a failed sweep they can be stale; see
the counterexample.) -/
theorem c2_caches_consistent_init_and_success (c : Ctx) (X : Fin F → Fin T → ℚ)
    (hy : Hyper) (d : Draws F T K) (b : Bool) (s : State F T K)
    (h1 : cachesOK c s) (h2 : (update c b s).1 = true) :
    cachesOK c (LVI_BP_NMF_init c X hy d) ∧ cachesOK c (update c b s).2 := by
  constructor
  · exact ⟨fun f k => rfl, fun f k => rfl, fun k t => rfl, fun k t => rfl⟩
  · have hr := update_fst_true c b s h2
    have hsw := sweep_caches c b s.good_k s hr h1
    have h3 : (update c b s).2 =
        lower_bound_step c
          { update_r (update_pi (sweepComponents c b s.good_k s).2) with
            good_k := prune (update_r (update_pi (sweepComponents c b s.good_k s).2)) } := by
      simp [update, hr]
    rw [h3]
    exact hsw

/-- Summing `g` over a duplicate-free list containing `k` splits off `g k`
from the sum over the remaining elements. -/
lemma sum_map_split_mem (g : Fin K → ℚ) :
    ∀ (l : List (Fin K)) (k : Fin K), k ∈ l → l.Nodup →
    (l.map g).sum = g k + ((l.filter (fun j => !decide (j = k))).map g).sum := by
  intro l
  induction l with
  | nil => intro k hk _; exact absurd hk (List.not_mem_nil k)
  | cons a t ih =>
    intro k hk hnd
    obtain ⟨ha, ht⟩ := List.nodup_cons.mp hnd
    rcases List.mem_cons.mp hk with hak | hkt
    · subst hak
      have htt : t.filter (fun j => !decide (j = k)) = t := by
        apply List.filter_eq_self.mpr
        intro j hj
        have hj2 : j ≠ k := fun he => ha (he ▸ hj)
        simp [hj2]
      simp [htt]
    · have hak : a ≠ k := fun he => ha (he ▸ hkt)
      have hsum := ih k hkt ht
      simp only [List.map_cons, List.sum_cons, hsum, List.filter_cons]
      simp [hak]
      ring

/-- C6.  The residual used by the three per-component updates equals the
observation minus the combined reconstruction of every *other* active
component: for `k` in a duplicate-free active set,
`Eres = X - sum over active j of ED*ES*EZ + own term`
coincides with `X - sum over active j different from k`.  (In the source the
expression is recomputed as a fresh local variable at the start of each of
`update_phi`, `update_psi`, `update_z` — it is never stored on `self`.) -/
theorem c6_residual_excludes_other_components (s : State F T K) (k : Fin K)
    (hk : k ∈ s.good_k) (hnd : s.good_k.Nodup) :
    ∀ f t, Eres s k f t = s.X f t -
      ((s.good_k.filter (fun j => !decide (j = k))).map
        (fun j => s.ED f j * (s.ES j t * s.EZ j t))).sum := by
  intro f t
  unfold Eres recon
  rw [sum_map_split_mem (fun j => s.ED f j * (s.ES j t * s.EZ j t)) s.good_k k hk hnd]
  ring

/-- C7.  For equal-shaped mean and precision arrays with strictly positive
precisions, `comp_expect` returns exactly the elementwise pair
`(exp(mu + 1/(2 r)), exp(2 mu + 2/r))`; it is a pure function of its
arguments (it reads and writes no state). -/
theorem c7_comp_expect_formula {ι : Type} (e : ℚ → ℚ) (mu r : ι → ℚ)
    (hr : ∀ i, 0 < r i) :
    comp_expect e mu r =
      (fun i => e (mu i + 1 / (2 * r i)), fun i => e (2 * mu i + 2 / r i)) := rfl

/-- C3 (amended).  On an all-zero observation matrix `update_r` yields
`alpha_g = c0 + F*T/2` exactly, but `beta_g = d0 + (1/2) * sum of squared
reconstruction` (the residual is minus the reconstruction, not zero);
`beta_g = d0` holds exactly when the active-set reconstruction is itself
zero. -/
theorem c3_update_r_all_zero_X (s : State F T K) (hX : ∀ f t, s.X f t = 0) :
    (update_r s).alpha_g = s.c0 + (1/2) * F * T ∧
    (update_r s).beta_g = s.d0 + (1/2) * sumIdx (fun f => sumIdx (fun t => recon s f t ^ 2)) ∧
    ((∀ f t, recon s f t = 0) → (update_r s).beta_g = s.d0) := by
  refine ⟨rfl, ?_, ?_⟩
  · show s.d0 + (1/2) * sumIdx (fun f => sumIdx (fun t => (s.X f t - recon s f t) ^ 2)) = _
    simp only [hX, zero_sub, neg_sq]
  · intro h0
    show s.d0 + (1/2) * sumIdx (fun f => sumIdx (fun t => (s.X f t - recon s f t) ^ 2)) = s.d0
    simp [sumIdx, hX, h0]

/-- C4 (amended).  Construction performs no validation at all: every
hyperparameter configuration is accepted, a missing keyword (including one of
a paired `a0`/`b0` or `c0`/`d0`) silently takes its documented default, and
every `K` (including `K = 0`) produces a model state whose active set is
`arange(K)`. -/
theorem c4_construction_accepts_all_configs (c : Ctx) (X : Fin F → Fin T → ℚ)
    (hy : Hyper) (d : Draws F T K) :
    (LVI_BP_NMF_init c X hy d).alpha = hy.alpha.getD 2 ∧
    (LVI_BP_NMF_init c X hy d).a0 = hy.a0.getD 1 ∧
    (LVI_BP_NMF_init c X hy d).b0 = hy.b0.getD 1 ∧
    (LVI_BP_NMF_init c X hy d).c0 = hy.c0.getD (1/1000000) ∧
    (LVI_BP_NMF_init c X hy d).d0 = hy.d0.getD (1/1000000) ∧
    (LVI_BP_NMF_init c X hy d).good_k = List.finRange K :=
  ⟨rfl, rfl, rfl, rfl, rfl, rfl⟩

/-- C1 (amended).  When `update_phi` (resp. `update_psi`) yields any implied
precision `<= 0`, the call returns the failure signal and the moment caches
`ED[:, k]`, `ED2[:, k]` (resp. `ES[k]`, `ES2[k]`) and all other state are
left unchanged — but the posterior mean and precision of component `k` are
*not* left unchanged: they have already been overwritten with the optimizer
mode and the non-positive curvature. -/
theorem c1_failure_overwrites_mean_precision (c : Ctx) (s s2 : State F T K) (k k2 : Fin K)
    (hphi : (update_phi c s k).1 = false) (hpsi : (update_psi c s2 k2).1 = false) :
    (update_phi c s k).2 =
      { s with
        mu_phi := fun f j => if j = k then phi_mu_hat c s k f else s.mu_phi f j
        r_phi := fun f j => if j = k then phi_r_hat c s k f else s.r_phi f j } ∧
    (update_psi c s2 k2).2 =
      { s2 with
        mu_psi := fun j t => if j = k2 then psi_mu_hat c s2 k2 t else s2.mu_psi j t
        r_psi := fun j t => if j = k2 then psi_r_hat c s2 k2 t else s2.r_psi j t } := by
  constructor
  · unfold update_phi at hphi ⊢
    by_cases hf : ∃ f, phi_r_hat c s k f ≤ 0
    · rw [if_pos hf]
      rfl
    · rw [if_neg hf] at hphi
      exact absurd hphi (by simp)
  · unfold update_psi at hpsi ⊢
    by_cases hf : ∃ t, psi_r_hat c s2 k2 t ≤ 0
    · rw [if_pos hf]
      rfl
    · rw [if_neg hf] at hpsi
      exact absurd hpsi (by simp)

/-- On `sFail` with the identity optimizer the implied dictionary precision
vanishes, so `update_phi` fails. -/
lemma ev_phiR_fail : phi_r_hat ctxId sFail 0 = fun _ => (0:ℚ) := by
  funext f
  simp [phi_r_hat, df2_phi, f_stub_phi, phi_mu_hat, ctxId, sFail, Eres, recon, sumIdx,
    Fin.sum_univ_one]
  norm_num

lemma ev_phi_fail : update_phi ctxId sFail 0 = (false, phi_commit_state ctxId sFail 0) := by
  rw [update_phi, if_pos]
  exact ⟨0, by rw [ev_phiR_fail]⟩

lemma ev_sweep_fail : (sweepComponents ctxId true sFail.good_k sFail).1 = false := by
  show (sweepComponents ctxId true [0] sFail).1 = false
  simp [sweepComponents, ev_phi_fail]

lemma ev_update_fail : (update ctxId true sFail).1 = false := by
  simp [update, ev_sweep_fail]

lemma ev_upd_eq : update ctxId true sFail =
    (false, (update_psi ctxId (update_z ctxId (phi_commit_state ctxId sFail 0) 0) 0).2) := by
  have hg : sFail.good_k = [0] := rfl
  simp [update, hg, sweepComponents, ev_phi_fail]

lemma ev_cex_ED : (update ctxId true sFail).2.ED 0 0 = 1 := by
  rw [ev_upd_eq]
  rw [(update_psi_snd_dict ctxId (update_z ctxId (phi_commit_state ctxId sFail 0) 0) 0).2.2.1]
  rfl

lemma ev_cex_mu : (update ctxId true sFail).2.mu_phi 0 0 = 1/2 := by
  rw [ev_upd_eq]
  rw [(update_psi_snd_dict ctxId (update_z ctxId (phi_commit_state ctxId sFail 0) 0) 0).1]
  show (phi_commit_state ctxId sFail 0).mu_phi 0 0 = 1/2
  simp [phi_commit_state, phi_mu_hat, ctxId, sFail]

lemma ev_cex_r : (update ctxId true sFail).2.r_phi 0 0 = 0 := by
  rw [ev_upd_eq]
  rw [(update_psi_snd_dict ctxId (update_z ctxId (phi_commit_state ctxId sFail 0) 0) 0).2.1]
  show (phi_commit_state ctxId sFail 0).r_phi 0 0 = 0
  simp [phi_commit_state, ev_phiR_fail]

lemma ev_cachesOK_sFail : cachesOK ctxId sFail := by
  refine ⟨?_, ?_, ?_, ?_⟩ <;> intro a b <;>
    simp [sFail, comp_expect, ctxId] <;> norm_num

lemma ev_stale : ¬ cachesOK ctxId (update ctxId true sFail).2 := by
  rintro ⟨h1, -, -, -⟩
  have h := h1 0 0
  simp [comp_expect] at h
  rw [ev_cex_ED, ev_cex_mu, ev_cex_r] at h
  simp [ctxId] at h

/-- On `sFail` with the shifting optimizer both per-component updates fail
and the committed means visibly move. -/
lemma ev_phiR_shift : phi_r_hat ctxShift sFail 0 = fun _ => (-2:ℚ) := by
  funext f
  simp [phi_r_hat, df2_phi, f_stub_phi, phi_mu_hat, ctxShift, ctxId, sFail, Eres, recon,
    sumIdx, Fin.sum_univ_one]
  norm_num

lemma ev_phi_shift_fail : update_phi ctxShift sFail 0 =
    (false, phi_commit_state ctxShift sFail 0) := by
  rw [update_phi, if_pos]
  exact ⟨0, by rw [ev_phiR_shift]; norm_num⟩

lemma ev_psiR_shift : psi_r_hat ctxShift sFail 0 = fun _ => (-3/2:ℚ) := by
  funext t
  simp [psi_r_hat, df2_psi, f_stub_psi, psi_mu_hat, ctxShift, ctxId, sFail, Eres, recon,
    sumIdx, Fin.sum_univ_one]
  norm_num

lemma ev_psi_shift_fail : update_psi ctxShift sFail 0 =
    (false, psi_commit_state ctxShift sFail 0) := by
  rw [update_psi, if_pos]
  exact ⟨0, by rw [ev_psiR_shift]; norm_num⟩

/-- On `sSucc` the whole dictionary-enabled sweep succeeds. -/
lemma ev_phiR_succ : phi_r_hat ctxId sSucc 0 = fun _ => (6:ℚ) := by
  funext f
  simp [phi_r_hat, df2_phi, f_stub_phi, phi_mu_hat, ctxId, sSucc, sFail, Eres, recon, sumIdx,
    Fin.sum_univ_one]
  norm_num

lemma ev_phi_succ : update_phi ctxId sSucc 0 = (true, phi_refresh_state ctxId sSucc 0) := by
  rw [update_phi, if_neg]
  rintro ⟨f, hf⟩
  rw [ev_phiR_succ] at hf
  norm_num at hf

lemma ev_psiR_succ : psi_r_hat ctxId (update_z ctxId (phi_refresh_state ctxId sSucc 0) 0) 0 =
    fun _ => (18/11:ℚ) := by
  funext t
  simp [psi_r_hat, df2_psi, f_stub_psi, psi_mu_hat, update_z, phi_refresh_state,
    phi_commit_state, phi_mu_hat, phi_r_hat, df2_phi, f_stub_phi, comp_expect,
    ctxId, sSucc, sFail, Eres, recon, sumIdx, Fin.sum_univ_one]
  norm_num

lemma ev_psi_succ : update_psi ctxId (update_z ctxId (phi_refresh_state ctxId sSucc 0) 0) 0 =
    (true, psi_refresh_state ctxId (update_z ctxId (phi_refresh_state ctxId sSucc 0) 0) 0) := by
  rw [update_psi, if_neg]
  rintro ⟨t, ht⟩
  rw [ev_psiR_succ] at ht
  norm_num at ht

lemma ev_sweep_succ : (sweepComponents ctxId true sSucc.good_k sSucc).1 = true := by
  show (sweepComponents ctxId true [0] sSucc).1 = true
  simp [sweepComponents, ev_phi_succ, ev_psi_succ]

lemma ev_update_succ : (update ctxId true sSucc).1 = true := by
  simp [update, ev_sweep_succ]

lemma ev_cachesOK_sSucc : cachesOK ctxId sSucc := by
  refine ⟨?_, ?_, ?_, ?_⟩ <;> intro a b <;>
    simp [sSucc, sFail, comp_expect, ctxId] <;> norm_num

/-- On `sSucc` the encoding-only sweep (dictionary flag off) also succeeds. -/
lemma ev_psiR_enc : psi_r_hat ctxId (update_z ctxId sSucc 0) 0 = fun _ => (27/14:ℚ) := by
  funext t
  simp [psi_r_hat, df2_psi, f_stub_psi, psi_mu_hat, update_z, ctxId, sSucc, sFail, Eres,
    recon, sumIdx, Fin.sum_univ_one]
  norm_num

lemma ev_psi_enc : update_psi ctxId (update_z ctxId sSucc 0) 0 =
    (true, psi_refresh_state ctxId (update_z ctxId sSucc 0) 0) := by
  rw [update_psi, if_neg]
  rintro ⟨t, ht⟩
  rw [ev_psiR_enc] at ht
  norm_num at ht

lemma ev_sweep_enc : (sweepComponents ctxId false sSucc.good_k sSucc).1 = true := by
  show (sweepComponents ctxId false [0] sSucc).1 = true
  simp [sweepComponents, ev_psi_enc]

/-- C1, counterexample to the claim as stated: a failing `update_phi`
(resp. `update_psi`) returns the failure signal yet the stored posterior mean
of component 0 *changes*, refuting the claim that the posterior parameters of that
component are left unchanged from their values before the update. -/
theorem c1_counterexample :
    (update_phi ctxShift sFail 0).1 = false ∧
    (update_phi ctxShift sFail 0).2.mu_phi 0 0 ≠ sFail.mu_phi 0 0 ∧
    (update_psi ctxShift sFail 0).1 = false ∧
    (update_psi ctxShift sFail 0).2.mu_psi 0 0 ≠ sFail.mu_psi 0 0 := by
  refine ⟨by rw [ev_phi_shift_fail], ?_, by rw [ev_psi_shift_fail], ?_⟩
  · rw [ev_phi_shift_fail]
    show (phi_commit_state ctxShift sFail 0).mu_phi 0 0 ≠ sFail.mu_phi 0 0
    simp [phi_commit_state, phi_mu_hat, ctxShift, ctxId, sFail]
  · rw [ev_psi_shift_fail]
    show (psi_commit_state ctxShift sFail 0).mu_psi 0 0 ≠ sFail.mu_psi 0 0
    simp [psi_commit_state, psi_mu_hat, ctxShift, ctxId, sFail]

/-- C1, witness instantiating the amended theorem at a concrete failure. -/
theorem c1_witness :
    (update_phi ctxShift sFail 0).2 =
      { sFail with
        mu_phi := fun f j => if j = 0 then phi_mu_hat ctxShift sFail 0 f else sFail.mu_phi f j
        r_phi := fun f j => if j = 0 then phi_r_hat ctxShift sFail 0 f else sFail.r_phi f j } ∧
    (update_psi ctxShift sFail 0).2 =
      { sFail with
        mu_psi := fun j t => if j = 0 then psi_mu_hat ctxShift sFail 0 t else sFail.mu_psi j t
        r_psi := fun j t => if j = 0 then psi_r_hat ctxShift sFail 0 t else sFail.r_psi j t } :=
  c1_failure_overwrites_mean_precision ctxShift sFail sFail 0 0
    (by rw [ev_phi_shift_fail]) (by rw [ev_psi_shift_fail])

/-- C2, counterexample to «the caches are never stale»: from a consistent
state, a *failed* sweep leaves the dictionary cache of the failing component stale
relative to the overwritten mean/precision. -/
theorem c2_counterexample :
    cachesOK ctxId sFail ∧ (update ctxId true sFail).1 = false ∧
    ¬ cachesOK ctxId (update ctxId true sFail).2 :=
  ⟨ev_cachesOK_sFail, ev_update_fail, ev_stale⟩

/-- C2, witness: consistency after a concrete construction and after a
concrete successful sweep. -/
theorem c2_witness :
    cachesOK ctxId (LVI_BP_NMF_init ctxId (fun _ _ => (1:ℚ)) {} drawsOne) ∧
    cachesOK ctxId (update ctxId true sSucc).2 :=
  c2_caches_consistent_init_and_success ctxId (fun _ _ => (1:ℚ)) {} drawsOne true sSucc
    ev_cachesOK_sSucc ev_update_succ

/-- C3, counterexample to the claim as stated: on an all-zero observation
with a nonzero reconstruction, `beta_g` is *not* `d0`. -/
theorem c3_counterexample :
    (∀ f t, sZero.X f t = 0) ∧ (update_r sZero).beta_g ≠ sZero.d0 := by
  refine ⟨fun f t => rfl, ?_⟩
  show sZero.d0 +
      (1/2) * sumIdx (fun f => sumIdx (fun t => (sZero.X f t - recon sZero f t) ^ 2)) ≠
    sZero.d0
  simp [sZero, sFail, recon, sumIdx, Fin.sum_univ_one]

/-- C3, witness instantiating the amended theorem on the all-zero state. -/
theorem c3_witness :
    (update_r sZero).alpha_g = sZero.c0 + (1/2) * ((1:ℕ):ℚ) * ((1:ℕ):ℚ) ∧
    (update_r sZero).beta_g =
      sZero.d0 + (1/2) * sumIdx (fun f => sumIdx (fun t => recon sZero f t ^ 2)) := by
  have h := c3_update_r_all_zero_X sZero (fun f t => rfl)
  exact ⟨h.1, h.2.1⟩

/-- C4, counterexample to the claim as stated: supplying only `a0` (no `b0`)
is accepted — `b0` silently defaults to 1 — and `K = 0` is accepted,
producing a model state; no construction attempt is rejected. -/
theorem c4_counterexample :
    (LVI_BP_NMF_init ctxId (fun _ _ => (1:ℚ)) { a0 := some 5 } drawsOne).a0 = 5 ∧
    (LVI_BP_NMF_init ctxId (fun _ _ => (1:ℚ)) { a0 := some 5 } drawsOne).b0 = 1 ∧
    (LVI_BP_NMF_init ctxId (fun _ _ => (1:ℚ)) {} drawsK0).good_k = [] :=
  ⟨rfl, rfl, rfl⟩

/-- C5, witness: a concrete failed sweep commits none of the global steps. -/
theorem c5_witness :
    (update ctxId true sFail).2.Epi = sFail.Epi ∧
    (update ctxId true sFail).2.good_k = sFail.good_k ∧
    (update ctxId true sFail).2.obj = sFail.obj := by
  have h := c5_failed_sweep_no_global_commit ctxId true sFail ev_update_fail
  exact ⟨h.2.2.1, h.2.2.2.2.2.2.1, h.2.2.2.2.2.2.2⟩

/-- C6, witness: the residual identity evaluated on a concrete state. -/
theorem c6_witness :
    Eres sFail 0 0 0 = sFail.X 0 0 -
      ((sFail.good_k.filter (fun j => !decide (j = 0))).map
        (fun j => sFail.ED 0 j * (sFail.ES j 0 * sFail.EZ j 0))).sum :=
  c6_residual_excludes_other_components sFail 0
    (by show (0 : Fin 1) ∈ [0]; simp)
    (by show List.Nodup [(0 : Fin 1)]; simp) 0 0

/-- C7, witness: the expectation transform evaluated on concrete arrays. -/
theorem c7_witness :
    comp_expect (fun x : ℚ => x) (fun _ : Fin 1 => (0:ℚ)) (fun _ : Fin 1 => (1:ℚ)) =
      (fun i => (fun x : ℚ => x)
          ((fun _ : Fin 1 => (0:ℚ)) i + 1 / (2 * (fun _ : Fin 1 => (1:ℚ)) i)),
       fun i => (fun x : ℚ => x)
          (2 * (fun _ : Fin 1 => (0:ℚ)) i + 2 / (fun _ : Fin 1 => (1:ℚ)) i)) :=
  c7_comp_expect_formula (fun x => x) (fun _ => 0) (fun _ => 1) (fun i => by norm_num)

/-- C8, witness: a concrete successful sweep, whose pruned active set is a
sublist of the previous one of no greater length. -/
theorem c8_witness :
    (update ctxId true sSucc).2.good_k.Sublist sSucc.good_k ∧
    (update ctxId true sSucc).2.good_k.length ≤ sSucc.good_k.length := by
  have h := c8_prune_characterization ctxId true sSucc
    (by show ([0] : List (Fin 1)) ≠ []; simp) ev_update_succ
  exact ⟨h.2.1, h.2.2.1⟩

/-- C9, witness: a concrete encoding-only sweep leaves the dictionary cache
untouched while the usage-prior update is still committed. -/
theorem c9_witness :
    (update ctxId false sSucc).2.ED = sSucc.ED ∧
    ((update ctxId false sSucc).2.alpha_pi = fun j =>
      sSucc.a0 / ((1:ℕ):ℚ) +
        sumIdx (fun t => (sweepComponents ctxId false sSucc.good_k sSucc).2.EZ j t)) := by
  have h := c9_encode_only_fixes_dictionary ctxId sSucc
  exact ⟨h.2.2.1, h.2.2.2.2 ev_sweep_enc⟩

/-- C10, witness: a concrete failing dictionary update, after which the usage
and activation updates for the same component still run before the sweep
reports failure. -/
theorem c10_witness :
    update ctxId true sFail =
      (false, (update_psi ctxId (update_z ctxId (update_phi ctxId sFail 0).2 0) 0).2) :=
  c10_z_psi_run_after_phi_failure ctxId sFail 0 [] rfl (by rw [ev_phi_fail])

end BPNMF
